import Mathlib

/-!
Verification development for the awScout repository (an AWS secret scanner
written in Go).  The Go source is shallowly embedded below: Go strings are
modelled as lists of characters (the claims and inputs under study are
ASCII, where the byte view and the rune view of a Go string coincide),
compiled regular expressions are modelled by their extensional behaviour
(a structure holding the two operations the program uses), fallible
operations return Option or Except, and the concurrent collection
pipelines are modelled by sequential functions that process items in feed
order — the synchronisation in the source (mutex guarded appends, a wait
group, a one slot error channel) makes the collected count and the
terminal error independent of worker interleaving, which is all the
claims about the collectors speak about.
-/

/-- Model of a Go string as its sequence of characters. -/
abbrev GoStr := List Char

/-- Model of a compiled Go regular expression (regexp.Regexp) by the two
operations the program uses: MatchString reports whether the pattern
matches anywhere in the text, and findAll models FindAllStringSubmatch
restricted to the full-match component (index 0) of each occurrence,
which is the only component the source reads. -/
structure Regexp where
  matchString : GoStr → Bool
  findAll : GoStr → List GoStr

/-- Helper for splitLines; accumulates the current line. -/
def splitLinesAux : GoStr → GoStr → List GoStr
  | [], acc => [acc]
  | '\r' :: '\n' :: rest, acc => acc :: splitLinesAux rest []
  | '\n' :: rest, acc => acc :: splitLinesAux rest []
  | c :: rest, acc => splitLinesAux rest (acc ++ [c])

/-- Model of regexp.MustCompile("\r?\n").Split(s, -1) as used by the
source to split input into lines: a separator is either CR LF or a lone
LF; a lone CR is an ordinary character.  Splitting the empty string
yields one empty line. -/
def splitLines (s : GoStr) : List GoStr := splitLinesAux s []

/-- Model of the Go rune test in ValidatePassword for an upper case
letter (case A <= char && char <= Z). -/
def goIsUpper (c : Char) : Bool := decide ('A' ≤ c) && decide (c ≤ 'Z')

/-- Model of the Go rune test for a lower case letter. -/
def goIsLower (c : Char) : Bool := decide ('a' ≤ c) && decide (c ≤ 'z')

/-- Model of the Go rune test for a digit. -/
def goIsDigit (c : Char) : Bool := decide ('0' ≤ c) && decide (c ≤ '9')

/-- Characters of the fixed special set in the Go literal "!@#$%^&*". -/
def specialChars : GoStr := ['!', '@', '#', '$', '%', '^', '&', '*']

/-- Model of strings.ContainsRune("!@#$%^&*", char). -/
def goIsSpecial (c : Char) : Bool := specialChars.contains c

/-- Model of the flag-setting loop in Patterns.ValidatePassword: the four
booleans are hasUpper, hasLower, hasDigit, hasSpecial, updated by the
switch statement (first matching case wins) over each rune. -/
def pwScan : GoStr → Bool × Bool × Bool × Bool → Bool × Bool × Bool × Bool
  | [], fl => fl
  | c :: rest, (u, l, d, s) =>
    if goIsUpper c then pwScan rest (true, l, d, s)
    else if goIsLower c then pwScan rest (u, true, d, s)
    else if goIsDigit c then pwScan rest (u, l, true, s)
    else if goIsSpecial c then pwScan rest (u, l, d, true)
    else pwScan rest (u, l, d, s)

/-- Model of the Patterns struct of package pattern: the Compiled map is
modelled as an association list (Go map iteration order is unspecified
and no claim depends on it; keys produced by JSON decoding are unique). -/
structure Patterns where
  Compiled : List (String × Regexp)

/-- Model of (p *Patterns) ValidatePassword from pattern/feed.go: look up
the reserved entry, require the base expression to match, then require
all four character-class flags collected by the rune loop. -/
def Patterns.ValidatePassword (p : Patterns) (password : GoStr) : Bool :=
  match p.Compiled.lookup "Password Pattern" with
  | some pattern =>
      if pattern.matchString password = false then false
      else
        match pwScan password (false, false, false, false) with
        | (hUp, hLow, hDig, hSpec) => hUp && hLow && hDig && hSpec
  | none => false

/-- Test for an ASCII alphanumeric character, the class [A-Za-z\d]. -/
def isAlphaNum (c : Char) : Bool := goIsUpper c || goIsLower c || goIsDigit c

/-- Model of the fixed fallback expression regexp.Compile of the pattern
caret [A-Za-z\d] repeated at least 8 times dollar, from LoadPatterns:
anchored at both ends of
the text, it matches exactly the strings of at least 8 ASCII
alphanumeric characters, and FindAllStringSubmatch yields at most the
single whole-text occurrence. -/
def fallbackRegexp : Regexp :=
  ⟨fun s => decide (8 ≤ s.length) && s.all isAlphaNum,
   fun s => if decide (8 ≤ s.length) && s.all isAlphaNum then [s] else []⟩

/-- Model of the compilation loop of LoadPatterns: each entry is compiled
in iteration order; on failure the reserved name gets the fallback
expression and any other entry is dropped with a warning log. -/
def compileLoop (compile : String → Option Regexp) : List (String × String) → List (String × Regexp)
  | [] => []
  | (name, patternStr) :: rest =>
    match compile patternStr with
    | some pattern => (name, pattern) :: compileLoop compile rest
    | none =>
      if name = "Password Pattern" then (name, fallbackRegexp) :: compileLoop compile rest
      else compileLoop compile rest

/-- Model of LoadPatterns from pattern/feed.go.  The file system and JSON
layer is abstracted into the source argument: none models any of the
path resolution, open, or JSON decode errors (each returns the error to
the caller), and some gives the decoded name-to-expression entries.
Expression compilation is abstracted by the compile argument (none
models a regexp.Compile error). -/
def LoadPatterns (compile : String → Option Regexp) (source : Option (List (String × String))) : Option Patterns :=
  match source with
  | none => none
  | some patternStrings => some ⟨compileLoop compile patternStrings⟩

/-- Modelled from the spec (section 4.1): the per-entry outcome written
as a filterMap — keep a compiled entry, substitute the fixed default for
the reserved password identifier, drop any other failing entry.  Used to
state the refinement of the loading loop against the specification. -/
def loadResultSpec (compile : String → Option Regexp) (entries : List (String × String)) : List (String × Regexp) :=
  entries.filterMap (fun e =>
    match compile e.2 with
    | some pattern => some (e.1, pattern)
    | none => if e.1 = "Password Pattern" then some (e.1, fallbackRegexp) else none)

/-- Model of a prefix test, helper for containsGo. -/
def startsWithGo : GoStr → GoStr → Bool
  | _, [] => true
  | [], _ :: _ => false
  | c :: s, d :: t => c == d && startsWithGo s t

/-- Model of strings.Contains(s, sub): does sub occur as a contiguous
substring of s. -/
def containsGo : GoStr → GoStr → Bool
  | [], sub => sub.isEmpty
  | c :: rest, sub => startsWithGo (c :: rest) sub || containsGo rest sub

/-- Model of the fixed blocklist map declared inside MatchPatterns. -/
def blocklist : List (String × List GoStr) :=
  [("AWS_Client", ["iam:PassRole".toList, "S3Key".toList])]

/-- Model of the inner blocklist check of MatchPatterns: a candidate is
blocked when its pattern name has a blocklist entry and the candidate
contains one of the listed words. -/
def blockedCandidate (name : String) (candidate : GoStr) : Bool :=
  match blocklist.lookup name with
  | some ws => ws.any (fun w => containsGo candidate w)
  | none => false

/-- Model of the body of the loop over Compiled in MatchPatterns: the
list of surviving candidate strings contributed by one entry, in
discovery order.  The reserved password name is evaluated line by line
through the compound validator regardless of mode; other names generate
candidates according to the mode and drop blocked ones; an unrecognized
mode generates nothing. -/
def matchOne (p : Patterns) (name : String) (pattern : Regexp) (userInput : GoStr) (matchMode : String) : List GoStr :=
  if name = "Password Pattern" then
    (splitLines userInput).filter (fun line => p.ValidatePassword line)
  else if matchMode = "FindAllStringSubmatch" then
    (pattern.findAll userInput).filter (fun m => !blockedCandidate name m)
  else if matchMode = "MatchString" then
    (splitLines userInput).filter (fun line => pattern.matchString line && !blockedCandidate name line)
  else []

/-- Model of (p *Patterns) MatchPatterns from pattern/feed.go: the result
map holds, for each entry of Compiled, its surviving candidates — a key
is present exactly when at least one candidate survived, since the Go
code only ever appends to map entries. -/
def Patterns.MatchPatterns (p : Patterns) (userInput : GoStr) (matchMode : String) : List (String × List GoStr) :=
  (p.Compiled.map (fun e => (e.1, matchOne p e.1 e.2 userInput matchMode))).filter
    (fun e => !e.2.isEmpty)

/-- Modelled from the spec (section 4.2): the candidate strings generated
for a non-reserved pattern before exclusion filtering — every occurrence
in all-submatches mode, every line the pattern matches in line mode. -/
def candidates (matchMode : String) (pattern : Regexp) (userInput : GoStr) : List GoStr :=
  if matchMode = "FindAllStringSubmatch" then pattern.findAll userInput
  else if matchMode = "MatchString" then
    (splitLines userInput).filter (fun line => pattern.matchString line)
  else []

/-- Model of Anonymize from formatting/offuscate.go. -/
def Anonymize (s : GoStr) : GoStr :=
  let visibleChars := 4
  if s.length ≤ visibleChars then List.replicate s.length '*'
  else s.take visibleChars ++ List.replicate 6 '*'

/-- Model of the Config struct of cmd/main.go. -/
structure Config where
  Region : String
  Profile : String
  Search : String
  ServiceFlag : String
  ShowContent : Bool
  Threads : Int
  MatchMode : String

/-- Model of loadConfig from cmd/main.go: each command line flag is an
optional provided value falling back to the registered default.  The
function registers and parses the flags and returns the configuration;
it performs no validation of any value, in particular none of the
matchMode flag. -/
def loadConfig (region profile search serviceFlag : Option String)
    (showContent : Option Bool) (threads : Option Int) (matchMode : Option String) : Config :=
  ⟨region.getD "us-east-1",
   profile.getD "default",
   search.getD "pattern/findallstring.json",
   serviceFlag.getD "ec2,cloudformation,sagemaker,emr,codebuild,glue",
   showContent.getD false,
   threads.getD 4,
   matchMode.getD "MatchString"⟩

/-- Model of an ec2types.Instance as consumed by FetchInstances: only
the instance id is read by the feeder and workers. -/
structure Instance where
  InstanceId : String

/-- Model of the InstanceData record of services/ec2utils.go. -/
structure InstanceData where
  InstanceID : String
  UserData : GoStr

/-- Model of the per-item work of a FetchInstances worker for one
instance.  The fetchAttr argument abstracts the
DescribeInstanceAttribute call: none is a call error (logged, item
skipped), some none is a response carrying no user data value (the item
is recorded with empty user data), and some (some enc) carries the
base64 encoded value.  The decode argument abstracts
base64.StdEncoding.DecodeString, none being a decode error (logged,
item skipped).  The returned Option is the InstanceData appended under
the mutex, or none when the item is skipped. -/
def processInstance (fetchAttr : String → Option (Option GoStr)) (decode : GoStr → Option GoStr)
    (inst : Instance) : Option InstanceData :=
  match fetchAttr inst.InstanceId with
  | none => none
  | some none => some ⟨inst.InstanceId, []⟩
  | some (some userDataEncoded) =>
    match decode userDataEncoded with
    | none => none
    | some userDataBytes => some ⟨inst.InstanceId, userDataBytes⟩

/-- Model of the feeder loop of FetchInstances consuming paginator
pages.  A page is either a fetch error or a list of reservations, each
a list of instances.  A page error is sent on the error channel and
aborts the run: FetchInstances then returns nil together with that
error, discarding every already collected item.  Otherwise the page
instances are fed to the workers, whose successful results are appended
to the shared slice. -/
def feedLoop (fetchAttr : String → Option (Option GoStr)) (decode : GoStr → Option GoStr) :
    List (Except String (List (List Instance))) → List InstanceData → Except String (List InstanceData)
  | [], acc => .ok acc
  | (Except.error e) :: _, _ => .error e
  | (Except.ok reservations) :: rest, acc =>
    feedLoop fetchAttr decode rest
      (acc ++ reservations.flatten.filterMap (processInstance fetchAttr decode))

/-- Model of FetchInstances from services/ec2utils.go.  Worker
interleaving only permutes the order of the mutex guarded appends; the
embedding fixes feed order, which the claims (about the collected count
and the terminal error) do not constrain. -/
def FetchInstances (fetchAttr : String → Option (Option GoStr)) (decode : GoStr → Option GoStr)
    (pages : List (Except String (List (List Instance)))) : Except String (List InstanceData) :=
  feedLoop fetchAttr decode pages []

/-- Outcome of one remote call attempt inside the retry loops of
services/codebuildutils.go (fetchClusterSteps) and the SageMaker
fetcher: success, a ThrottlingException coded API error, or any other
error. -/
inductive CallOutcome (α : Type) where
  | ok (a : α)
  | throttled
  | failed (e : String)

/-- Terminal failure of the retry loop: a non throttling error wrapped
and returned from inside the loop, or the max-retries error produced
after the loop exhausts its five attempts. -/
inductive FetchError where
  | terminal (e : String)
  | maxRetries

/-- Model of the body of the retry loop (for i := 0; i < maxRetries;
i++).  The call argument gives the outcome of the attempt with the
given zero-based index; the accumulated sleeps list records the
duration, in seconds, of each time.Sleep performed (2 to the power of
the attempt index — math.Pow(2, i) is exact on float64 for i < 5); the
attempts counter counts calls performed.  Reaching i = maxRetries with
the loop never broken means the last attempt throttled, and the code
then returns the max retries error. -/
def retryAux (call : Nat → CallOutcome α) (maxRetries : Nat) (i attempts : Nat) (sleeps : List Nat) :
    Nat × List Nat × Except FetchError α :=
  if _h : i < maxRetries then
    match call i with
    | .ok a => (attempts + 1, sleeps, .ok a)
    | .throttled => retryAux call maxRetries (i + 1) (attempts + 1) (sleeps ++ [2 ^ i])
    | .failed e => (attempts + 1, sleeps, .error (.terminal e))
  else
    (attempts, sleeps, .error .maxRetries)
termination_by maxRetries - i

/-- Model of fetchClusterSteps from services/codebuildutils.go with the
remote ListSteps call abstracted to its per-attempt outcome; the same
loop appears verbatim in fetchBootstrapActions and in
FetchSageMakerProcessingJobs.  Returns the number of attempts
performed, the list of sleep durations, and the result. -/
def fetchClusterSteps (call : Nat → CallOutcome α) : Nat × List Nat × Except FetchError α :=
  retryAux call 5 0 0 []

/-!
Helper lemmas shared by the claim theorems.
-/

/-- Characterisation of the loading loop by the specification filterMap. -/
lemma compileLoop_eq_loadResultSpec (compile : String → Option Regexp) :
    ∀ entries, compileLoop compile entries = loadResultSpec compile entries := by
  intro entries
  induction entries with
  | nil => rfl
  | cons e rest ih =>
    obtain ⟨name, str⟩ := e
    unfold compileLoop loadResultSpec
    unfold loadResultSpec at ih
    cases hc : compile str with
    | some pattern => simp [List.filterMap_cons, hc, ih]
    | none =>
      by_cases hn : name = "Password Pattern" <;>
        simp [List.filterMap_cons, hc, hn, ih]

/-- Length of a filterMap in terms of the skipped elements. -/
lemma length_filterMap_eq_sub {α β : Type} (f : α → Option β) :
    ∀ l : List α,
      (l.filterMap f).length = l.length - (l.filter (fun a => (f a).isNone)).length := by
  intro l
  induction l with
  | nil => rfl
  | cons a rest ih =>
    have hle : (rest.filter (fun a => (f a).isNone)).length ≤ rest.length :=
      List.length_filter_le _ _
    cases hfa : f a with
    | none =>
      have h1 : (a :: rest).filterMap f = rest.filterMap f := by
        simp [List.filterMap_cons, hfa]
      have h2 : (a :: rest).filter (fun a => (f a).isNone)
          = a :: rest.filter (fun a => (f a).isNone) := by
        simp [List.filter_cons, hfa]
      rw [h1, h2]
      simp only [List.length_cons]
      omega
    | some b =>
      have h1 : (a :: rest).filterMap f = b :: rest.filterMap f := by
        simp [List.filterMap_cons, hfa]
      have h2 : (a :: rest).filter (fun a => (f a).isNone)
          = rest.filter (fun a => (f a).isNone) := by
        simp [List.filter_cons, hfa]
      rw [h1, h2]
      simp only [List.length_cons]
      omega

/-- Feeding only successful pages appends every surviving item in feed
order. -/
lemma feedLoop_ok (fetchAttr : String → Option (Option GoStr)) (decode : GoStr → Option GoStr) :
    ∀ (pages : List (List (List Instance))) (acc : List InstanceData),
      feedLoop fetchAttr decode (pages.map Except.ok) acc
        = .ok (acc ++ pages.flatten.flatten.filterMap (processInstance fetchAttr decode)) := by
  intro pages
  induction pages with
  | nil => intro acc; simp [feedLoop]
  | cons pg rest ih =>
    intro acc
    simp [List.map_cons, feedLoop, ih, List.flatten_cons, List.flatten_append,
      List.filterMap_append, List.append_assoc]

/-- Feeding a failing page returns that error and discards everything. -/
lemma feedLoop_error (fetchAttr : String → Option (Option GoStr)) (decode : GoStr → Option GoStr)
    (e : String) :
    ∀ (good : List (List (List Instance))) (rest : List (Except String (List (List Instance))))
      (acc : List InstanceData),
      feedLoop fetchAttr decode (good.map Except.ok ++ Except.error e :: rest) acc = .error e := by
  intro good
  induction good with
  | nil => intro rest acc; simp [feedLoop]
  | cons pg grest ih =>
    intro rest acc
    simp only [List.map_cons, List.cons_append, feedLoop, List.append_eq]
    exact ih rest _

/-- C1: for a listing whose pages all succeed, FetchInstances succeeds
and collects exactly one record per instance whose per-item fetch
(attribute call plus user data decode) succeeded — N minus the failing
items; a page fetch error is returned as the terminal result with no
collected records. -/
theorem FetchInstances_failure_isolation
    (fetchAttr : String → Option (Option GoStr)) (decode : GoStr → Option GoStr) :
    (∀ pages : List (List (List Instance)),
       FetchInstances fetchAttr decode (pages.map Except.ok)
         = .ok (pages.flatten.flatten.filterMap (processInstance fetchAttr decode))
       ∧ (pages.flatten.flatten.filterMap (processInstance fetchAttr decode)).length
           = pages.flatten.flatten.length
             - (pages.flatten.flatten.filter
                 (fun i => (processInstance fetchAttr decode i).isNone)).length)
    ∧ (∀ (good : List (List (List Instance))) (e : String)
         (rest : List (Except String (List (List Instance)))),
       FetchInstances fetchAttr decode (good.map Except.ok ++ Except.error e :: rest)
         = .error e) := by
  constructor
  · intro pages
    refine ⟨?_, length_filterMap_eq_sub _ _⟩
    unfold FetchInstances
    simpa using feedLoop_ok fetchAttr decode pages []
  · intro good e rest
    exact feedLoop_error fetchAttr decode e good rest []

/-- Unrolling of the retry loop across a run of throttled attempts. -/
lemma retryAux_throttle {α : Type} (call : Nat → CallOutcome α) :
    ∀ (n i attempts : Nat) (sleeps : List Nat),
      (∀ d, d < n → call (i + d) = .throttled) → i + n ≤ 5 →
      retryAux call 5 i attempts sleeps
        = retryAux call 5 (i + n) (attempts + n)
            (sleeps ++ (List.range n).map (fun d => 2 ^ (i + d))) := by
  intro n
  induction n with
  | zero => intro i attempts sleeps _ _; simp
  | succ m ih =>
    intro i attempts sleeps hthr hle
    have hi : i < 5 := by omega
    have h0 : call i = .throttled := by simpa using hthr 0 (by omega)
    rw [retryAux, dif_pos hi, h0]
    have hshift : ∀ d, d < m → call (i + 1 + d) = .throttled := by
      intro d hd
      have := hthr (d + 1) (by omega)
      simpa [Nat.add_assoc, Nat.add_comm 1 d] using this
    rw [ih (i + 1) (attempts + 1) (sleeps ++ [2 ^ i]) hshift (by omega)]
    have hlist : sleeps ++ [2 ^ i] ++ (List.range m).map (fun d => 2 ^ (i + 1 + d))
        = sleeps ++ (List.range (m + 1)).map (fun d => 2 ^ (i + d)) := by
      rw [List.range_succ_eq_map]
      simp [List.map_map, Function.comp_def, List.append_assoc, Nat.add_assoc,
        Nat.add_comm 1]
    rw [hlist]
    have h1 : i + 1 + m = i + (m + 1) := by omega
    have h2 : attempts + 1 + m = attempts + (m + 1) := by omega
    rw [h1, h2]

/-- C2: the retry wrapper returns success after exactly k sleeps of
durations 2^0 .. 2^(k-1) when the call throttles exactly k times
(k < 5) before succeeding; it fails with the max retries error after
exactly 5 attempts when every attempt throttles; and a non throttling
error is propagated at once, with no further attempt and no further
sleep. -/
theorem fetchClusterSteps_retry_policy {α : Type} (call : Nat → CallOutcome α) :
    (∀ (k : Nat) (a : α), k < 5 → (∀ i, i < k → call i = .throttled) → call k = .ok a →
       fetchClusterSteps call = (k + 1, (List.range k).map (fun d => 2 ^ d), .ok a))
    ∧ ((∀ i, i < 5 → call i = .throttled) →
       fetchClusterSteps call = (5, (List.range 5).map (fun d => 2 ^ d), .error .maxRetries))
    ∧ (∀ (k : Nat) (e : String), k < 5 → (∀ i, i < k → call i = .throttled) →
       call k = .failed e →
       fetchClusterSteps call
         = (k + 1, (List.range k).map (fun d => 2 ^ d), .error (.terminal e))) := by
  refine ⟨?_, ?_, ?_⟩
  · intro k a hk hthr hok
    unfold fetchClusterSteps
    rw [retryAux_throttle call k 0 0 [] (fun d hd => by simpa using hthr d hd) (by omega)]
    simp only [Nat.zero_add, List.nil_append]
    rw [retryAux, dif_pos hk, hok]
  · intro hthr
    unfold fetchClusterSteps
    rw [retryAux_throttle call 5 0 0 [] (fun d hd => by simpa using hthr d hd) (by omega)]
    simp only [Nat.zero_add, List.nil_append]
    rw [retryAux, dif_neg (by omega)]
  · intro k e hk hthr hfail
    unfold fetchClusterSteps
    rw [retryAux_throttle call k 0 0 [] (fun d hd => by simpa using hthr d hd) (by omega)]
    simp only [Nat.zero_add, List.nil_append]
    rw [retryAux, dif_pos hk, hfail]

/-- Witness for the retry policy theorem: a call that throttles on
attempts 0 and 1 and succeeds on attempt 2 finishes in 3 attempts with
sleeps of 1 and 2 seconds. -/
theorem fetchClusterSteps_retry_policy_witness :
    fetchClusterSteps (fun i => if i < 2 then CallOutcome.throttled else CallOutcome.ok 42)
      = (3, [1, 2], Except.ok 42) := by
  have h := (fetchClusterSteps_retry_policy
      (fun i => if i < 2 then CallOutcome.throttled else CallOutcome.ok 42)).1 2 42
      (by omega) (fun i hi => by interval_cases i <;> rfl) rfl
  simpa [List.range_succ] using h

/-- C6: the redaction function returns an all-asterisk string of the
input length when the input has at most 4 characters, and otherwise a
fixed 10 character mask whose first 4 characters are those of the input
and whose last 6 characters are asterisks. -/
theorem Anonymize_mask (s : GoStr) :
    (s.length ≤ 4 → Anonymize s = List.replicate s.length '*')
    ∧ (4 < s.length →
        (Anonymize s).length = 10
        ∧ (Anonymize s).take 4 = s.take 4
        ∧ (Anonymize s).drop 4 = List.replicate 6 '*') := by
  constructor
  · intro h
    simp [Anonymize, h]
  · intro h
    have hif : Anonymize s = s.take 4 ++ List.replicate 6 '*' := by
      simp only [Anonymize]
      rw [if_neg (by omega)]
    have hlen : (s.take 4).length = 4 := by
      simp [List.length_take]; omega
    refine ⟨?_, ?_, ?_⟩
    · rw [hif]; simp [hlen]
    · rw [hif]
      have := List.take_left (s.take 4) (List.replicate 6 '*')
      rwa [hlen] at this
    · rw [hif]
      have := List.drop_left (s.take 4) (List.replicate 6 '*')
      rwa [hlen] at this

/-- Witness for the redaction theorem at a short and a long input. -/
theorem Anonymize_mask_witness :
    Anonymize ("abc".toList) = List.replicate ("abc".toList).length '*'
    ∧ (Anonymize ("abcdefgh".toList)).length = 10
    ∧ (Anonymize ("abcdefgh".toList)).take 4 = ("abcdefgh".toList).take 4
    ∧ (Anonymize ("abcdefgh".toList)).drop 4 = List.replicate 6 '*' := by
  refine ⟨(Anonymize_mask ("abc".toList)).1 (by decide), ?_⟩
  have h := (Anonymize_mask ("abcdefgh".toList)).2 (by decide)
  exact ⟨h.1, h.2.1, h.2.2⟩

/-- C7: loading fails exactly on an unreadable or unparseable source (a
per-entry compile failure never fails the load, an empty result is a
valid success), and the compiled set refines the specification rule:
compiled entries are kept, the reserved password identifier falls back
to the fixed default expression of at least 8 alphanumeric characters,
and any other failing entry is dropped. -/
theorem LoadPatterns_error_policy (compile : String → Option Regexp) :
    LoadPatterns compile none = none
    ∧ (∀ entries, LoadPatterns compile (some entries)
        = some ⟨loadResultSpec compile entries⟩) := by
  refine ⟨rfl, fun entries => ?_⟩
  have h : LoadPatterns compile (some entries) = some ⟨compileLoop compile entries⟩ := rfl
  rw [h, compileLoop_eq_loadResultSpec]

/-- Enumeration of the special character set via list membership. -/
lemma goIsSpecial_mem (c : Char) (h : goIsSpecial c = true) : c ∈ specialChars := by
  unfold goIsSpecial at h
  exact List.elem_iff.mp h

/-- Upper case characters are not lower case. -/
lemma not_lower_of_upper (c : Char) (h : goIsUpper c = true) : goIsLower c = false := by
  cases hl : goIsLower c with
  | false => rfl
  | true =>
    exfalso
    simp only [goIsUpper, Bool.and_eq_true, decide_eq_true_iff] at h
    simp only [goIsLower, Bool.and_eq_true, decide_eq_true_iff] at hl
    exact absurd (le_trans hl.1 h.2) (by decide)

/-- Upper case characters are not digits. -/
lemma not_digit_of_upper (c : Char) (h : goIsUpper c = true) : goIsDigit c = false := by
  cases hd : goIsDigit c with
  | false => rfl
  | true =>
    exfalso
    simp only [goIsUpper, Bool.and_eq_true, decide_eq_true_iff] at h
    simp only [goIsDigit, Bool.and_eq_true, decide_eq_true_iff] at hd
    exact absurd (le_trans h.1 hd.2) (by decide)

/-- Upper case characters are not in the special set. -/
lemma not_special_of_upper (c : Char) (h : goIsUpper c = true) : goIsSpecial c = false := by
  cases hs : goIsSpecial c with
  | false => rfl
  | true =>
    exfalso
    have hmem : c ∈ (['!', '@', '#', '$', '%', '^', '&', '*'] : List Char) :=
      goIsSpecial_mem c hs
    fin_cases hmem <;> exact absurd h (by decide)

/-- Lower case characters are not digits. -/
lemma not_digit_of_lower (c : Char) (h : goIsLower c = true) : goIsDigit c = false := by
  cases hd : goIsDigit c with
  | false => rfl
  | true =>
    exfalso
    simp only [goIsLower, Bool.and_eq_true, decide_eq_true_iff] at h
    simp only [goIsDigit, Bool.and_eq_true, decide_eq_true_iff] at hd
    exact absurd (le_trans h.1 hd.2) (by decide)

/-- Lower case characters are not in the special set. -/
lemma not_special_of_lower (c : Char) (h : goIsLower c = true) : goIsSpecial c = false := by
  cases hs : goIsSpecial c with
  | false => rfl
  | true =>
    exfalso
    have hmem : c ∈ (['!', '@', '#', '$', '%', '^', '&', '*'] : List Char) :=
      goIsSpecial_mem c hs
    fin_cases hmem <;> exact absurd h (by decide)

/-- Digits are not in the special set. -/
lemma not_special_of_digit (c : Char) (h : goIsDigit c = true) : goIsSpecial c = false := by
  cases hs : goIsSpecial c with
  | false => rfl
  | true =>
    exfalso
    have hmem : c ∈ (['!', '@', '#', '$', '%', '^', '&', '*'] : List Char) :=
      goIsSpecial_mem c hs
    fin_cases hmem <;> exact absurd h (by decide)

/-- Characterisation of the flag scan: since the four character classes
are pairwise disjoint and the switch takes the first matching case, each
final flag is its initial value joined with an existence test over the
scanned characters. -/
lemma pwScan_eq (cs : GoStr) :
    ∀ u l d s, pwScan cs (u, l, d, s)
      = (u || cs.any goIsUpper, l || cs.any goIsLower,
         d || cs.any goIsDigit, s || cs.any goIsSpecial) := by
  induction cs with
  | nil => intro u l d s; simp [pwScan]
  | cons c rest ih =>
    intro u l d s
    cases hu : goIsUpper c with
    | true =>
      simp [pwScan, hu, not_lower_of_upper c hu, not_digit_of_upper c hu,
        not_special_of_upper c hu, ih, List.any_cons]
    | false =>
      cases hl : goIsLower c with
      | true =>
        simp [pwScan, hu, hl, not_digit_of_lower c hl, not_special_of_lower c hl, ih,
          List.any_cons]
      | false =>
        cases hd : goIsDigit c with
        | true =>
          simp [pwScan, hu, hl, hd, not_special_of_digit c hd, ih, List.any_cons]
        | false =>
          cases hs : goIsSpecial c with
          | true => simp [pwScan, hu, hl, hd, hs, ih, List.any_cons]
          | false => simp [pwScan, hu, hl, hd, hs, ih, List.any_cons]

/-- Compound validator characterisation for any loaded password entry. -/
lemma validatePassword_iff (p : Patterns) (pw : GoStr) (base : Regexp)
    (hlook : p.Compiled.lookup "Password Pattern" = some base) :
    p.ValidatePassword pw = true
      ↔ (base.matchString pw = true ∧ pw.any goIsUpper = true ∧ pw.any goIsLower = true
         ∧ pw.any goIsDigit = true ∧ pw.any goIsSpecial = true) := by
  unfold Patterns.ValidatePassword
  rw [hlook]
  cases hm : base.matchString pw with
  | false => simp [hm]
  | true =>
    rw [pwScan_eq]
    simp [hm, and_assoc]

/-- Empty lines never pass the compound validator. -/
lemma validatePassword_nil (p : Patterns) : p.ValidatePassword [] = false := by
  unfold Patterns.ValidatePassword
  cases hl : p.Compiled.lookup "Password Pattern" with
  | none => rfl
  | some pattern =>
    cases hm : pattern.matchString [] with
    | false => simp [hm]
    | true => simp [hm, pwScan]

/-- Inversion of membership in the match result: an entry comes from one
entry of Compiled whose contribution is non-empty. -/
lemma matchPatterns_mem_elim {p : Patterns} {input : GoStr} {mode name : String}
    {lst : List GoStr} (h : (name, lst) ∈ p.MatchPatterns input mode) :
    ∃ pattern, (name, pattern) ∈ p.Compiled
      ∧ lst = matchOne p name pattern input mode ∧ lst ≠ [] := by
  unfold Patterns.MatchPatterns at h
  obtain ⟨hm, hne⟩ := List.mem_filter.mp h
  obtain ⟨e, he, heq⟩ := List.mem_map.mp hm
  obtain ⟨n0, pat⟩ := e
  injection heq with hA hB
  subst hA
  refine ⟨pat, he, hB.symm, ?_⟩
  intro hnil
  rw [hnil] at hne
  simp at hne

/-- Introduction of membership in the match result from a non-empty
contribution. -/
lemma matchPatterns_mem_intro {p : Patterns} {input : GoStr} {mode name : String}
    {pattern : Regexp} (hmem : (name, pattern) ∈ p.Compiled)
    (hne : matchOne p name pattern input mode ≠ []) :
    (name, matchOne p name pattern input mode) ∈ p.MatchPatterns input mode := by
  unfold Patterns.MatchPatterns
  refine List.mem_filter.mpr ⟨List.mem_map.mpr ⟨(name, pattern), hmem, rfl⟩, ?_⟩
  cases hL : matchOne p name pattern input mode with
  | nil => exact absurd hL hne
  | cons x xs => simp [hL]

/-- Blocklist check evaluated at the one name carrying an exclusion
list. -/
lemma blockedCandidate_awsclient (c : GoStr) :
    blockedCandidate "AWS_Client" c
      = (containsGo c ("iam:PassRole".toList) || containsGo c ("S3Key".toList)) := by
  simp [blockedCandidate, blocklist, List.lookup, List.any_cons]

/-- Contribution of a non-reserved entry under an unrecognized mode. -/
lemma matchOne_unknown_mode (p : Patterns) (name : String) (pattern : Regexp)
    (input : GoStr) (mode : String) (h1 : mode ≠ "FindAllStringSubmatch")
    (h2 : mode ≠ "MatchString") (hn : name ≠ "Password Pattern") :
    matchOne p name pattern input mode = [] := by
  simp [matchOne, hn, h1, h2]

/-- Contribution of the reserved entry in any mode. -/
lemma matchOne_password (p : Patterns) (pattern : Regexp) (input : GoStr) (mode : String) :
    matchOne p "Password Pattern" pattern input mode
      = (splitLines input).filter (fun line => p.ValidatePassword line) := by
  simp [matchOne]

/-- Regexp value modelling the Go expression matching only the empty
text (caret immediately followed by dollar, no multiline flag):
MatchString holds exactly on the empty string and
FindAllStringSubmatch finds the single empty occurrence there. -/
def reEmptyOnly : Regexp := ⟨fun s => s.isEmpty, fun s => if s.isEmpty then [[]] else []⟩

/-- Regexp value modelling the empty Go expression, which matches at
every position of any text: MatchString always holds, and
FindAllStringSubmatch returns one empty occurrence per position
(length plus one of them). -/
def reAlwaysMatch : Regexp := ⟨fun _ => true, fun s => List.replicate (s.length + 1) []⟩

/-- Patterns value as produced by LoadPatterns when the password entry
fails to compile: the reserved name bound to the fallback expression. -/
def fallbackPatterns : Patterns := ⟨[("Password Pattern", fallbackRegexp)]⟩

/-- C3 counterexample: load the registry with a password entry whose
expression fails to compile, so the fallback base expression is
installed; the line Abcd1234! is then rejected by the compound
validator (the exclamation mark is outside the alphanumeric class of
the anchored fallback expression, so the base match fails) and the line
is not included in the match result — the claim states it passes and is
included. -/
theorem validatePassword_fallback_counterexample :
    LoadPatterns (fun _ => none) (some [("Password Pattern", "p@ss(")])
      = some fallbackPatterns
    ∧ fallbackPatterns.ValidatePassword ("Abcd1234!".toList) = false
    ∧ fallbackPatterns.MatchPatterns ("Abcd1234!".toList) "MatchString" = [] :=
  ⟨rfl, by decide, by decide⟩

/-- C3 (amended): a candidate line passes the compound validator iff it
matches the base expression and contains an upper case letter, a lower
case letter, a digit and a special character; with the fallback base
expression as loaded, the line Abcd1234! passes the four class checks
but fails the base expression and is excluded, and the line abcdefgh
matches the base expression but fails the class checks and is
excluded. -/
theorem ValidatePassword_compound_rule :
    (∀ (p : Patterns) (pw : GoStr) (base : Regexp),
       p.Compiled.lookup "Password Pattern" = some base →
       (p.ValidatePassword pw = true
         ↔ (base.matchString pw = true ∧ pw.any goIsUpper = true ∧ pw.any goIsLower = true
            ∧ pw.any goIsDigit = true ∧ pw.any goIsSpecial = true)))
    ∧ (("Abcd1234!".toList).any goIsUpper = true ∧ ("Abcd1234!".toList).any goIsLower = true
       ∧ ("Abcd1234!".toList).any goIsDigit = true
       ∧ ("Abcd1234!".toList).any goIsSpecial = true)
    ∧ fallbackRegexp.matchString ("Abcd1234!".toList) = false
    ∧ fallbackPatterns.ValidatePassword ("Abcd1234!".toList) = false
    ∧ fallbackPatterns.MatchPatterns ("Abcd1234!".toList) "MatchString" = []
    ∧ fallbackRegexp.matchString ("abcdefgh".toList) = true
    ∧ fallbackPatterns.ValidatePassword ("abcdefgh".toList) = false
    ∧ fallbackPatterns.MatchPatterns ("abcdefgh".toList) "MatchString" = [] :=
  ⟨validatePassword_iff, by decide, by decide, by decide, by decide, by decide, by decide,
   by decide⟩

/-- Witness for the compound validator rule at the loaded fallback
entry. -/
theorem ValidatePassword_compound_rule_witness :
    fallbackPatterns.Compiled.lookup "Password Pattern" = some fallbackRegexp
    ∧ (fallbackPatterns.ValidatePassword ("Abcd1234!".toList) = true
       ↔ (fallbackRegexp.matchString ("Abcd1234!".toList) = true
          ∧ ("Abcd1234!".toList).any goIsUpper = true
          ∧ ("Abcd1234!".toList).any goIsLower = true
          ∧ ("Abcd1234!".toList).any goIsDigit = true
          ∧ ("Abcd1234!".toList).any goIsSpecial = true)) :=
  ⟨rfl, ValidatePassword_compound_rule.1 fallbackPatterns ("Abcd1234!".toList)
    fallbackRegexp rfl⟩

/-- C4 counterexample: a loaded pattern whose expression matches the
empty string (here the model of the expression matching only the empty
text) makes the matcher return a non-empty MatchSet on the empty
string, in both modes — the claim states the result is always empty. -/
theorem matchPatterns_empty_input_counterexample :
    (⟨[("EmptyLine", reEmptyOnly)]⟩ : Patterns).MatchPatterns ("".toList) "MatchString"
      = [("EmptyLine", [[]])]
    ∧ (⟨[("EmptyLine", reEmptyOnly)]⟩ : Patterns).MatchPatterns ("".toList)
        "FindAllStringSubmatch"
      = [("EmptyLine", [[]])] :=
  ⟨by decide, by decide⟩

/-- C4 (amended): the matcher is a total function (it never returns an
error), and on the empty string it returns the empty MatchSet provided
no non-reserved compiled expression matches the empty string; the
reserved password pattern never contributes on empty input in any
case. -/
theorem matchPatterns_empty_input_amended (p : Patterns) (mode : String)
    (h : ∀ name re, (name, re) ∈ p.Compiled → name ≠ "Password Pattern" →
          re.matchString [] = false ∧ re.findAll [] = []) :
    p.MatchPatterns [] mode = [] := by
  unfold Patterns.MatchPatterns
  rw [List.filter_eq_nil_iff]
  intro a ha
  obtain ⟨e, he, heq⟩ := List.mem_map.mp ha
  obtain ⟨name, re⟩ := e
  subst heq
  suffices hnil : matchOne p name re [] mode = [] by simp [hnil]
  by_cases hn : name = "Password Pattern"
  · subst hn
    rw [matchOne_password]
    simp [splitLines, splitLinesAux, validatePassword_nil]
  · have hclass := h name re he hn
    unfold matchOne
    rw [if_neg hn]
    by_cases h1 : mode = "FindAllStringSubmatch"
    · rw [if_pos h1, hclass.2]
      rfl
    · rw [if_neg h1]
      by_cases h2 : mode = "MatchString"
      · rw [if_pos h2]
        simp [splitLines, splitLinesAux, hclass.1]
      · rw [if_neg h2]

/-- Witness for the amended empty-input theorem: a set whose only
pattern (the fallback expression) does not match the empty string. -/
theorem matchPatterns_empty_input_amended_witness :
    (⟨[("SomeKey", fallbackRegexp)]⟩ : Patterns).MatchPatterns [] "MatchString" = [] :=
  matchPatterns_empty_input_amended ⟨[("SomeKey", fallbackRegexp)]⟩ "MatchString" (by
    intro name re hmem hn
    rw [List.mem_singleton] at hmem
    injection hmem with hA hB
    subst hA
    subst hB
    exact ⟨by decide, by decide⟩)

/-- C5: for the AWS_Client pattern (the one carrying an exclusion
list), a candidate generated in either supported mode is absent from
every AWS_Client entry of the MatchSet when it contains one of the
disqualifying substrings, and is retained in the MatchSet otherwise. -/
theorem matchPatterns_awsclient_exclusion
    (p : Patterns) (pattern : Regexp) (input : GoStr) (mode : String) (c : GoStr)
    (hmem : ("AWS_Client", pattern) ∈ p.Compiled)
    (hmode : mode = "FindAllStringSubmatch" ∨ mode = "MatchString")
    (hc : c ∈ candidates mode pattern input) :
    ((containsGo c ("iam:PassRole".toList) || containsGo c ("S3Key".toList)) = true →
       ∀ lst, ("AWS_Client", lst) ∈ p.MatchPatterns input mode → c ∉ lst)
    ∧ ((containsGo c ("iam:PassRole".toList) || containsGo c ("S3Key".toList)) = false →
       ∃ lst, ("AWS_Client", lst) ∈ p.MatchPatterns input mode ∧ c ∈ lst) := by
  have hAWSne : ("AWS_Client" : String) ≠ "Password Pattern" := by decide
  constructor
  · intro hdisq lst hlst hcin
    obtain ⟨pat2, hmem2, rfl, hne⟩ := matchPatterns_mem_elim hlst
    unfold matchOne at hcin
    rw [if_neg hAWSne] at hcin
    rcases hmode with rfl | rfl
    · rw [if_pos rfl] at hcin
      have hpred := (List.mem_filter.mp hcin).2
      rw [blockedCandidate_awsclient, hdisq] at hpred
      exact absurd hpred (by decide)
    · rw [if_neg (by decide), if_pos rfl] at hcin
      have hpred := (List.mem_filter.mp hcin).2
      rw [Bool.and_eq_true] at hpred
      have hpred2 := hpred.2
      rw [blockedCandidate_awsclient, hdisq] at hpred2
      exact absurd hpred2 (by decide)
  · intro hdisq
    have hcin : c ∈ matchOne p "AWS_Client" pattern input mode := by
      unfold matchOne
      rw [if_neg hAWSne]
      rcases hmode with rfl | rfl
      · rw [if_pos rfl]
        unfold candidates at hc
        rw [if_pos rfl] at hc
        refine List.mem_filter.mpr ⟨hc, ?_⟩
        rw [blockedCandidate_awsclient, hdisq]
        rfl
      · rw [if_neg (by decide), if_pos rfl]
        unfold candidates at hc
        rw [if_neg (by decide), if_pos rfl] at hc
        obtain ⟨hline, hms⟩ := List.mem_filter.mp hc
        refine List.mem_filter.mpr ⟨hline, ?_⟩
        rw [Bool.and_eq_true]
        refine ⟨hms, ?_⟩
        rw [blockedCandidate_awsclient, hdisq]
        rfl
    exact ⟨_, matchPatterns_mem_intro hmem (List.ne_nil_of_mem hcin), hcin⟩

/-- Witness for the exclusion theorem: a clean candidate line under the
AWS_Client pattern is retained in the MatchSet. -/
theorem matchPatterns_awsclient_exclusion_witness :
    ∃ lst, ("AWS_Client", lst)
        ∈ (⟨[("AWS_Client", reAlwaysMatch)]⟩ : Patterns).MatchPatterns
            ("clean line".toList) "MatchString"
      ∧ ("clean line".toList) ∈ lst :=
  (matchPatterns_awsclient_exclusion ⟨[("AWS_Client", reAlwaysMatch)]⟩ reAlwaysMatch
    ("clean line".toList) "MatchString" ("clean line".toList)
    (List.mem_singleton.mpr rfl) (Or.inr rfl) (by decide)).2 (by decide)

/-- C8: every pattern name present as a key of the returned MatchSet
maps to a non-empty list of matched strings. -/
theorem matchPatterns_no_empty_entries (p : Patterns) (input : GoStr) (mode : String)
    (name : String) (lst : List GoStr) (h : (name, lst) ∈ p.MatchPatterns input mode) :
    lst ≠ [] := by
  obtain ⟨_, _, _, hne⟩ := matchPatterns_mem_elim h
  exact hne

/-- Witness for the non-empty entries theorem at a concrete result. -/
theorem matchPatterns_no_empty_entries_witness :
    (("AWS_Client", ["clean".toList])
       ∈ (⟨[("AWS_Client", reAlwaysMatch)]⟩ : Patterns).MatchPatterns
           ("clean".toList) "MatchString")
    ∧ (["clean".toList] : List GoStr) ≠ [] :=
  ⟨by decide,
   matchPatterns_no_empty_entries ⟨[("AWS_Client", reAlwaysMatch)]⟩ ("clean".toList)
     "MatchString" "AWS_Client" ["clean".toList] (by decide)⟩

/-- C10: under a match mode that is neither FindAllStringSubmatch nor
MatchString, every entry of the MatchSet is the reserved password
pattern evaluated line by line through the compound validator, and the
reserved entry does appear whenever some line passes; every
non-reserved pattern contributes no matches at all. -/
theorem matchPatterns_unknown_mode (p : Patterns) (input : GoStr) (mode : String)
    (h1 : mode ≠ "FindAllStringSubmatch") (h2 : mode ≠ "MatchString") :
    (∀ name lst, (name, lst) ∈ p.MatchPatterns input mode →
       name = "Password Pattern"
       ∧ lst = (splitLines input).filter (fun line => p.ValidatePassword line))
    ∧ (∀ pattern, ("Password Pattern", pattern) ∈ p.Compiled →
       (splitLines input).filter (fun line => p.ValidatePassword line) ≠ [] →
       ("Password Pattern", (splitLines input).filter (fun line => p.ValidatePassword line))
         ∈ p.MatchPatterns input mode) := by
  constructor
  · intro name lst hmem
    obtain ⟨pattern, hcomp, rfl, hne⟩ := matchPatterns_mem_elim hmem
    by_cases hn : name = "Password Pattern"
    · subst hn
      exact ⟨rfl, matchOne_password p pattern input mode⟩
    · exact absurd (matchOne_unknown_mode p name pattern input mode h1 h2 hn) hne
  · intro pattern hmem hne
    have hx : matchOne p "Password Pattern" pattern input mode ≠ [] := by
      rw [matchOne_password]
      exact hne
    have hres := matchPatterns_mem_intro hmem hx
    rwa [matchOne_password] at hres

/-- Witness for the unknown mode theorem: with an unrecognized mode the
password pattern still yields its passing line. -/
theorem matchPatterns_unknown_mode_witness :
    ("Password Pattern",
      (splitLines ("Passw0rd!".toList)).filter
        (fun line => Patterns.ValidatePassword ⟨[("Password Pattern", reAlwaysMatch)]⟩ line))
      ∈ (⟨[("Password Pattern", reAlwaysMatch)]⟩ : Patterns).MatchPatterns
          ("Passw0rd!".toList) "bogus" :=
  (matchPatterns_unknown_mode ⟨[("Password Pattern", reAlwaysMatch)]⟩ ("Passw0rd!".toList)
    "bogus" (by decide) (by decide)).2 reAlwaysMatch (List.mem_singleton.mpr rfl)
    (by decide)

/-- C9 counterexample: an unsupported match mode value is not rejected
at configuration time — loadConfig stores it verbatim, and matching is
then performed with it (the reserved password pattern still produces a
match under the unsupported mode). -/
theorem loadConfig_invalid_mode_counterexample :
    (loadConfig none none none none none none (some "bogus")).MatchMode = "bogus"
    ∧ (("bogus" : String) == "FindAllStringSubmatch") = false
    ∧ (("bogus" : String) == "MatchString") = false
    ∧ (⟨[("Password Pattern", reAlwaysMatch)]⟩ : Patterns).MatchPatterns
        ("Passw0rd!".toList)
        ((loadConfig none none none none none none (some "bogus")).MatchMode)
      = [("Password Pattern", ["Passw0rd!".toList])] :=
  ⟨rfl, by decide, by decide, by decide⟩

/-- C9 (amended): loadConfig performs no validation of the match mode —
any provided value, supported or not, is stored verbatim in the
configuration (the default applies only when the flag is absent), and
matching then proceeds with that value, where an unsupported mode can
only yield password pattern entries. -/
theorem loadConfig_accepts_any_mode :
    ∀ (mm : String) (r pr se fl : Option String) (sc : Option Bool) (th : Option Int),
      (loadConfig r pr se fl sc th (some mm)).MatchMode = mm
      ∧ (loadConfig r pr se fl sc th none).MatchMode = "MatchString"
      ∧ (∀ (pat : Patterns) (input : GoStr) (name : String) (lst : List GoStr),
          (name, lst) ∈ pat.MatchPatterns input mm →
          mm = "FindAllStringSubmatch" ∨ mm = "MatchString" ∨ name = "Password Pattern") := by
  intro mm r pr se fl sc th
  refine ⟨rfl, rfl, ?_⟩
  intro pat input name lst hmem
  by_cases hA : mm = "FindAllStringSubmatch"
  · exact Or.inl hA
  by_cases hB : mm = "MatchString"
  · exact Or.inr (Or.inl hB)
  obtain ⟨pattern, hcomp, rfl, hne⟩ := matchPatterns_mem_elim hmem
  by_cases hn : name = "Password Pattern"
  · exact Or.inr (Or.inr hn)
  · exact absurd (matchOne_unknown_mode pat name pattern input mm hA hB hn) hne

/-- Witness for the amended configuration theorem. -/
theorem loadConfig_accepts_any_mode_witness :
    (loadConfig none none none none none none (some "weird")).MatchMode = "weird"
    ∧ ("weird" = "FindAllStringSubmatch" ∨ "weird" = "MatchString"
       ∨ ("Password Pattern" : String) = "Password Pattern") :=
  ⟨(loadConfig_accepts_any_mode "weird" none none none none none none).1,
   (loadConfig_accepts_any_mode "weird" none none none none none none).2.2
     ⟨[("Password Pattern", reAlwaysMatch)]⟩ ("Passw0rd!".toList) "Password Pattern"
     ["Passw0rd!".toList] (by decide)⟩
